import Mathlib

/-!
Verification of the FERRUM shell / diff-viewer against its specification.

The development shallowly embeds the relevant C code:

* `src/builtins.c`  — the command-history ring buffer (`lsh_add_to_history`);
* `src/line_reader.c` — the command-completion branch of `update_suggestions`;
* `src/ncurses_diff_viewer.c` — the viewer state machine: data loaders,
  `commit_marked_files`, `check_background_fetch`, `start_background_fetch`,
  `update_sync_status`, `push_commit`, `move_cursor_smart`, and the key
  handler `handle_ncurses_diff_input` specialised to the keys under study.

External collaborators (git child processes, the terminal, ncurses windows)
are abstracted as an environment record holding the already-parsed results of
the external calls, exactly as the spec treats them ("text in, structured
records out").  All state transitions on the viewer itself are translated
from the source.
-/

namespace FERRUM

/-! ## Command history (src/builtins.c)

`command_history` is a fixed array of `HISTORY_SIZE` entries together with
`history_count` and `history_index` (both C `int`s, non-negative in every
code path).  `HISTORY_SIZE` is defined in a header outside the provided
sources, so the capacity is kept as an explicit parameter `HS`.  Slots are
modelled as a total function from `Nat`; a slot that was never written holds
`none`.  Timestamps do not influence any claim and are omitted. -/

structure HistState where
  slots : Nat → Option String
  history_count : Nat
  history_index : Nat

/-- The empty history: `history_count = 0`, `history_index = 0`, all slots
unwritten. -/
def histEmpty : HistState :=
  { slots := fun _ => none, history_count := 0, history_index := 0 }

/-- Models the C array read `command_history[i].command` for an `int` index
`i`.  An index outside `[0, HISTORY_SIZE)` is an out-of-bounds read whose
value is unspecified in C; it is modelled as `none`, which compares unequal
to every stored command. -/
def histRead (HS : Nat) (st : HistState) (i : Int) : Option String :=
  if 0 ≤ i ∧ i < (HS : Int) then st.slots i.toNat else none

/-- The raw index used by the duplicate check in `lsh_add_to_history`
(`command_history[history_index - 1]`, `int` arithmetic). -/
def dupCheckIndex (st : HistState) : Int :=
  (st.history_index : Int) - 1

/-- `lsh_add_to_history` (src/builtins.c:84-105).  Empty commands and
duplicates of the entry at `history_index - 1` are ignored; otherwise the
command is written at `history_index`, `history_count` grows up to the
capacity (the `free` of the evicted entry is memory management with no
state counterpart), and `history_index` advances modulo the capacity. -/
def lsh_add_to_history (HS : Nat) (st : HistState) (command : String) : HistState :=
  if command = "" ∨
      (0 < st.history_count ∧ histRead HS st (dupCheckIndex st) = some command) then
    st
  else
    { slots := fun i => if i = st.history_index then some command else st.slots i,
      history_count := if st.history_count = HS then st.history_count else st.history_count + 1,
      history_index := (st.history_index + 1) % HS }

/-- Claim C5, counterexample.  Take capacity 3 and the reachable history
a, b: adding "c" twice in immediate succession is not a no-op.  The first
add writes slot 2 and wraps `history_index` to 0; the second add's
duplicate check reads index `-1` (out of bounds, modelled as no match) and
therefore writes "c" again, evicting the oldest entry "a" from slot 0.
`history_count` stays 3 but the stored entries change. -/
theorem lsh_add_to_history_not_idempotent_at_wrap :
    (lsh_add_to_history 3
        (lsh_add_to_history 3
          (lsh_add_to_history 3 (lsh_add_to_history 3 histEmpty "a") "b") "c") "c").history_count
      = (lsh_add_to_history 3
          (lsh_add_to_history 3 (lsh_add_to_history 3 histEmpty "a") "b") "c").history_count ∧
    (lsh_add_to_history 3
        (lsh_add_to_history 3 (lsh_add_to_history 3 histEmpty "a") "b") "c").slots 0
      = some "a" ∧
    (lsh_add_to_history 3
        (lsh_add_to_history 3
          (lsh_add_to_history 3 (lsh_add_to_history 3 histEmpty "a") "b") "c") "c").slots 0
      = some "c" := by
  refine ⟨rfl, ?_, ?_⟩ <;> decide

/-- Claim C5, amended.  Adding the same non-empty command twice in immediate
succession is a no-op for the second call, provided the first call does not
leave `history_index` at 0 — that is, provided the first command was not
written into the last slot of the ring.  (In the wrapped case the duplicate
check reads `command_history[-1]`, out of bounds, and the second call
overwrites the oldest entry; see the counterexample.) -/
theorem lsh_add_to_history_idempotent_of_no_wrap (HS : Nat) (st : HistState) (c : String)
    (hc : c ≠ "") (hidx : st.history_index < HS)
    (h0 : (lsh_add_to_history HS st c).history_index ≠ 0) :
    lsh_add_to_history HS (lsh_add_to_history HS st c) c = lsh_add_to_history HS st c := by
  by_cases hdup : c = "" ∨ (0 < st.history_count ∧ histRead HS st (dupCheckIndex st) = some c)
  · have h1 : lsh_add_to_history HS st c = st := by
      rw [lsh_add_to_history, if_pos hdup]
    rw [h1, lsh_add_to_history, if_pos hdup]
  · have h1 : lsh_add_to_history HS st c =
        { slots := fun i => if i = st.history_index then some c else st.slots i,
          history_count := if st.history_count = HS then st.history_count else st.history_count + 1,
          history_index := (st.history_index + 1) % HS } := by
      rw [lsh_add_to_history, if_neg hdup]
    rw [h1] at h0 ⊢
    have hmod : (st.history_index + 1) % HS = st.history_index + 1 := by
      rcases Nat.lt_or_ge (st.history_index + 1) HS with hlt | hge
      · exact Nat.mod_eq_of_lt hlt
      · exfalso
        have hEq : st.history_index + 1 = HS := le_antisymm hidx hge
        simp only [hEq, Nat.mod_self] at h0
        exact h0 rfl
    rw [lsh_add_to_history]
    apply if_pos
    refine Or.inr ⟨?_, ?_⟩
    · simp only []
      split
      · omega
      · omega
    · simp only [histRead, dupCheckIndex, hmod]
      have hcast : ((st.history_index + 1 : Nat) : Int) - 1 = (st.history_index : Int) := by
        push_cast
        ring
      rw [hcast]
      have hb : (0 : Int) ≤ (st.history_index : Int) ∧ (st.history_index : Int) < (HS : Int) := by
        constructor
        · exact Int.natCast_nonneg _
        · exact_mod_cast hidx
      rw [if_pos hb]
      simp

/-- Witness for `lsh_add_to_history_idempotent_of_no_wrap`: capacity 3,
empty history, command "a"; the first add leaves `history_index = 1 ≠ 0`,
and the second add is a no-op. -/
theorem lsh_add_to_history_idempotent_witness :
    lsh_add_to_history 3 (lsh_add_to_history 3 histEmpty "a") "a"
      = lsh_add_to_history 3 histEmpty "a" :=
  lsh_add_to_history_idempotent_of_no_wrap 3 histEmpty "a" (by decide) (by decide) (by decide)

/-- Claim C10: with capacity 3, after the three distinct adds a, b, c the
ring has wrapped: `history_count = 3 > 0`, `history_index = 0`, the state is
reachable, and the next `lsh_add_to_history` call with any non-empty command
performs the duplicate check at raw index `history_index - 1 = -1`, which is
NOT inside `[0, HISTORY_SIZE)`.  This exhibits the out-of-bounds read. -/
theorem lsh_add_to_history_dup_check_out_of_bounds :
    0 < (lsh_add_to_history 3
          (lsh_add_to_history 3 (lsh_add_to_history 3 histEmpty "a") "b") "c").history_count ∧
    (lsh_add_to_history 3
        (lsh_add_to_history 3 (lsh_add_to_history 3 histEmpty "a") "b") "c").history_index = 0 ∧
    dupCheckIndex (lsh_add_to_history 3
        (lsh_add_to_history 3 (lsh_add_to_history 3 histEmpty "a") "b") "c") = -1 ∧
    ¬ (0 ≤ dupCheckIndex (lsh_add_to_history 3
        (lsh_add_to_history 3 (lsh_add_to_history 3 histEmpty "a") "b") "c")) := by
  refine ⟨?_, ?_, ?_, ?_⟩ <;> decide

/-! ## Command completion (src/line_reader.c, update_suggestions)

`update_suggestions` first looks for the last space in the buffer
(`strrchr(buffer, ' ')`).  When there is none it is completing the command
token: it counts the builtin names and alias names matching the whole buffer
case-insensitively, allocates the array, then fills it — builtins first,
then aliases — with the fill index capped by the precomputed count.  The
file/directory branch (buffer containing a space) consults the filesystem
and is outside this model. -/

/-- Models `strncasecmp(a, b, n) == 0`: the first `n` bytes of the two
NUL-terminated strings compare equal after `tolower`, the comparison
stopping at a terminator.  Truncating both character lists at `n` captures
the NUL-stop behaviour exactly. -/
def strncasecmpIsZero (a b : String) (n : Nat) : Bool :=
  decide ((a.toList.take n).map Char.toLower = (b.toList.take n).map Char.toLower)

/-- The match test used for command completion:
`strncasecmp(candidate, buffer, strlen(buffer)) == 0`. -/
def matchesPrefixCI (cand buffer : String) : Bool :=
  strncasecmpIsZero cand buffer buffer.length

/-- One pass of the fill loop of `update_suggestions`
(`for (i ...; i < n && idx < count; i++) if (match) suggestions[idx++] = ...`):
walks the candidate list, appending matches while the fill index stays below
the precomputed cap. -/
def fillLoop (p : String → Bool) (cap : Nat) :
    List String → Nat → List String → Nat × List String
  | [], idx, acc => (idx, acc)
  | c :: rest, idx, acc =>
    if idx < cap then
      if p c then fillLoop p cap rest (idx + 1) (acc ++ [c])
      else fillLoop p cap rest idx acc
    else (idx, acc)

/-- The command-completion branch of `update_suggestions`
(src/line_reader.c:279-346): count matching builtins and aliases, then fill
builtins first and aliases second, the index capped by the count. -/
def update_suggestions_command (builtins aliases : List String) (buffer : String) :
    List String :=
  let p := fun s => matchesPrefixCI s buffer
  let cnt := (builtins.filter p).length + (aliases.filter p).length
  let r1 := fillLoop p cnt builtins 0 []
  (fillLoop p cnt aliases r1.1 r1.2).2

theorem fillLoop_eq (p : String → Bool) (cap : Nat) (l : List String) :
    ∀ (idx : Nat) (acc : List String), idx = acc.length →
      acc.length + (l.filter p).length ≤ cap →
      fillLoop p cap l idx acc = (idx + (l.filter p).length, acc ++ l.filter p) := by
  induction l with
  | nil => intro idx acc _ _; simp [fillLoop]
  | cons c rest ih =>
    intro idx acc hidx hcap
    by_cases hpc : p c = true
    · have hflt : (c :: rest).filter p = c :: rest.filter p := by
        simp [List.filter, hpc]
      rw [hflt] at hcap ⊢
      simp only [List.length_cons] at hcap
      have hlt : idx < cap := by omega
      rw [fillLoop, if_pos hlt, if_pos hpc]
      rw [ih (idx + 1) (acc ++ [c]) (by simp [hidx])
          (by simp only [List.length_append, List.length_singleton]; omega)]
      simp only [Prod.mk.injEq, List.length_cons, List.append_assoc, List.singleton_append]
      exact ⟨by omega, trivial⟩
    · have hpc' : p c = false := by
        cases h : p c
        · rfl
        · exact absurd h hpc
      have hflt : (c :: rest).filter p = rest.filter p := by
        simp [List.filter, hpc']
      rw [hflt] at hcap ⊢
      by_cases hlt : idx < cap
      · rw [fillLoop, if_pos hlt, if_neg (by simp [hpc'])]
        exact ih idx acc hidx hcap
      · have hzero : (rest.filter p).length = 0 := by omega
        rw [fillLoop, if_neg hlt]
        simp [List.length_eq_zero.mp hzero]

theorem update_suggestions_command_eq (builtins aliases : List String) (buffer : String) :
    update_suggestions_command builtins aliases buffer
      = builtins.filter (fun s => matchesPrefixCI s buffer)
        ++ aliases.filter (fun s => matchesPrefixCI s buffer) := by
  simp only [update_suggestions_command]
  rw [fillLoop_eq _ _ _ 0 [] (by simp) (by simp)]
  simp only [Nat.zero_add, List.nil_append]
  rw [fillLoop_eq _ _ _ _ _ rfl (by simp)]

/-- Claim C8: for a buffer containing no space (command-completion context),
the candidate list is a subset of the builtin names and alias names, all
matching builtins precede all matching aliases (the list is exactly the
matching builtins followed by the matching aliases), and every candidate
starts with the buffer's command token under case-insensitive comparison. -/
theorem update_suggestions_command_correct (builtins aliases : List String) (buffer : String)
    (hns : buffer.toList.contains ' ' = false) :
    (∀ s ∈ update_suggestions_command builtins aliases buffer,
        s ∈ builtins ∨ s ∈ aliases) ∧
    (update_suggestions_command builtins aliases buffer
      = builtins.filter (fun s => matchesPrefixCI s buffer)
        ++ aliases.filter (fun s => matchesPrefixCI s buffer)) ∧
    (∀ s ∈ update_suggestions_command builtins aliases buffer,
        buffer.length ≤ s.length ∧
        (s.toList.take buffer.length).map Char.toLower
          = buffer.toList.map Char.toLower) := by
  have heq := update_suggestions_command_eq builtins aliases buffer
  refine ⟨?_, heq, ?_⟩
  · intro s hs
    rw [heq] at hs
    rcases List.mem_append.mp hs with h | h
    · exact Or.inl (List.mem_of_mem_filter h)
    · exact Or.inr (List.mem_of_mem_filter h)
  · intro s hs
    rw [heq] at hs
    have hmatch : matchesPrefixCI s buffer = true := by
      rcases List.mem_append.mp hs with h | h
      · exact (List.mem_filter.mp h).2
      · exact (List.mem_filter.mp h).2
    simp only [matchesPrefixCI, strncasecmpIsZero, decide_eq_true_eq] at hmatch
    have hlenbuf : buffer.length = buffer.toList.length := rfl
    have hfull : buffer.toList.take buffer.length = buffer.toList := by
      rw [hlenbuf, List.take_length]
    rw [hfull] at hmatch
    constructor
    · have hlen := congrArg List.length hmatch
      simp only [List.length_map, List.length_take] at hlen
      have hslen : s.length = s.toList.length := rfl
      omega
    · exact hmatch

/-- Witness for `update_suggestions_command_correct`: builtins cd, help,
history and alias hi, buffer "h", which contains no space; the candidates
are help, history, hi in builtin-then-alias order. -/
theorem update_suggestions_command_correct_witness :
    (∀ s ∈ update_suggestions_command ["cd", "help", "history"] ["hi"] "h",
        s ∈ ["cd", "help", "history"] ∨ s ∈ ["hi"]) ∧
    (update_suggestions_command ["cd", "help", "history"] ["hi"] "h"
      = (["cd", "help", "history"].filter (fun s => matchesPrefixCI s "h"))
        ++ (["hi"].filter (fun s => matchesPrefixCI s "h"))) ∧
    (∀ s ∈ update_suggestions_command ["cd", "help", "history"] ["hi"] "h",
        ("h").length ≤ s.length ∧
        (s.toList.take ("h").length).map Char.toLower
          = ("h").toList.map Char.toLower) :=
  update_suggestions_command_correct ["cd", "help", "history"] ["hi"] "h" (by decide)

/-! ## The diff viewer (src/ncurses_diff_viewer.c)

The `NCursesDiffViewer` struct is embedded field by field; the ncurses
`WINDOW` pointers and the panel-geometry integers are render-only and are
omitted.  The C arrays with their separate `_count` fields become lists
(the count is the list length).  C `int` fields that remain non-negative on
every modelled path become `Nat`; fields that the source stores negative
values in (`fetch_pid`, `pushing_branch_index`, `text_char_count`, ...)
become `Int`. -/

def MAX_FILES : Nat := 100

def MAX_FULL_FILE_LINES : Nat := 2000

def MAX_COMMITS : Nat := 50

def MAX_STASHES : Nat := 20

def MAX_BRANCHES : Nat := 5

inductive Mode where
  | fileList | fileView | commitList | commitView
  | stashList | stashView | branchList | branchView
deriving DecidableEq, Repr

inductive SyncStatus where
  | idle
  | syncingAppearing | syncingVisible | syncingDisappearing
  | pushingAppearing | pushingVisible | pushingDisappearing
  | pullingAppearing | pullingVisible | pullingDisappearing
  | syncedAppearing | syncedVisible | syncedDisappearing
  | pushedAppearing | pushedVisible | pushedDisappearing
  | pulledAppearing | pulledVisible | pulledDisappearing
deriving DecidableEq, Repr

/-- The C enum value of a `SyncStatus`, used for the range comparisons
(`status >= SYNC_STATUS_..._APPEARING && status <= ..._DISAPPEARING`). -/
def SyncStatus.toNat : SyncStatus → Nat
  | .idle => 0
  | .syncingAppearing => 1
  | .syncingVisible => 2
  | .syncingDisappearing => 3
  | .pushingAppearing => 4
  | .pushingVisible => 5
  | .pushingDisappearing => 6
  | .pullingAppearing => 7
  | .pullingVisible => 8
  | .pullingDisappearing => 9
  | .syncedAppearing => 10
  | .syncedVisible => 11
  | .syncedDisappearing => 12
  | .pushedAppearing => 13
  | .pushedVisible => 14
  | .pushedDisappearing => 15
  | .pulledAppearing => 16
  | .pulledVisible => 17
  | .pulledDisappearing => 18

structure NCursesChangedFile where
  filename : String
  status : Char
  marked_for_commit : Bool
deriving DecidableEq, Repr, Inhabited

structure NCursesCommit where
  hash : String
  author_initials : String
  title : String
  is_pushed : Bool
deriving DecidableEq, Repr, Inhabited

structure NCursesBranch where
  name : String
  status : Int
  commits_ahead : Int
  commits_behind : Int
deriving DecidableEq, Repr, Inhabited

structure NCursesFileLine where
  line : String
  type : Char
  is_diff_line : Bool
deriving DecidableEq, Repr, Inhabited

/-- `DeleteBranchOption` from the header. -/
inductive DeleteBranchOption where
  | deleteLocal | deleteRemote | deleteBoth | deleteCancel
deriving DecidableEq, Repr

/-- The `NCursesDiffViewer` state. -/
structure Viewer where
  files : List NCursesChangedFile
  selected_file : Nat
  file_lines : List NCursesFileLine
  file_scroll_offset : Nat
  file_cursor_line : Nat
  commits : List NCursesCommit
  selected_commit : Nat
  stashes : List String
  branches : List NCursesBranch
  selected_stash : Nat
  selected_branch : Nat
  current_mode : Mode
  sync_status : SyncStatus
  spinner_frame : Nat
  last_sync_time : Int
  animation_frame : Nat
  text_char_count : Int
  pushing_branch_index : Int
  pulling_branch_index : Int
  branch_push_status : SyncStatus
  branch_pull_status : SyncStatus
  branch_animation_frame : Nat
  branch_text_char_count : Int
  critical_operation_in_progress : Bool
  fetch_pid : Int
  fetch_in_progress : Bool
  branch_commits : List String
  current_branch_for_commits : String
  branch_commits_scroll_offset : Nat
  branch_commits_cursor_line : Nat
deriving DecidableEq, Repr

/-- A convenient fully-idle viewer used to build concrete states. -/
def viewer0 : Viewer :=
  { files := [], selected_file := 0, file_lines := [], file_scroll_offset := 0,
    file_cursor_line := 0, commits := [], selected_commit := 0, stashes := [],
    branches := [], selected_stash := 0, selected_branch := 0,
    current_mode := .fileList, sync_status := .idle, spinner_frame := 0,
    last_sync_time := 0, animation_frame := 0, text_char_count := 0,
    pushing_branch_index := -1, pulling_branch_index := -1,
    branch_push_status := .idle, branch_pull_status := .idle,
    branch_animation_frame := 0, branch_text_char_count := 0,
    critical_operation_in_progress := false, fetch_pid := -1,
    fetch_in_progress := false, branch_commits := [],
    current_branch_for_commits := "", branch_commits_scroll_offset := 0,
    branch_commits_cursor_line := 0 }

/-- The environment: results of the external git/dialog/process calls, held
as already-parsed records exactly as the spec's "opaque data providers".
Each field corresponds to one external call site. -/
structure GitEnv where
  changedFiles : List NCursesChangedFile
  commits : List NCursesCommit
  branches : List NCursesBranch
  stashes : List String
  diffLines : String → List NCursesFileLine
  branchCommitTexts : String → List String
  commitResult : Int
  currentBranch : Option String
  hasUpstream : Bool
  upstreamRef : Option String
  upstreamChoice : Option String
  setUpstreamResult : Int
  commitsAhead : Int
  commitsBehind : Int
  divergedConfirm : Bool
  forkOk : Bool
  pushResult : Int
  deleteDialogChoice : DeleteBranchOption
  deleteResult : Bool
  dropResult : Bool
  fetchForkPid : Int

/-! ### Panel data loaders

Each loader shells out, parses the text, and replaces its array wholesale,
capped at the fixed maximum; none of them touches a selection index.  The
parsing of the external text is the environment's job here; the loaders
below install the parsed records with the source's cap. -/

/-- `get_ncurses_changed_files` (src/ncurses_diff_viewer.c:213-255): replaces
`files` with the parsed porcelain entries, at most `MAX_FILES`. -/
def get_ncurses_changed_files (env : GitEnv) (v : Viewer) : Viewer :=
  { v with files := env.changedFiles.take MAX_FILES }

/-- `get_commit_history` (src/ncurses_diff_viewer.c:456-...): replaces
`commits` with the parsed log entries (pushed flags computed against the
unpushed-hash list), at most `MAX_COMMITS`. -/
def get_commit_history (env : GitEnv) (v : Viewer) : Viewer :=
  { v with commits := env.commits.take MAX_COMMITS }

/-- `get_ncurses_git_branches` (src/ncurses_diff_viewer.c:3963-4070):
replaces `branches`, at most `MAX_BRANCHES`. -/
def get_ncurses_git_branches (env : GitEnv) (v : Viewer) : Viewer :=
  { v with branches := env.branches.take MAX_BRANCHES }

/-- `get_ncurses_git_stashes` (src/ncurses_diff_viewer.c:4665-4678):
replaces `stashes`, at most `MAX_STASHES`. -/
def get_ncurses_git_stashes (env : GitEnv) (v : Viewer) : Viewer :=
  { v with stashes := env.stashes.take MAX_STASHES }

/-! ### load_full_file_with_diff (src/ncurses_diff_viewer.c:305-...)

The function resets the content panel, then either (new/untracked file)
shows the file's own first 50 lines as additions, or (tracked file) parses
the `git diff` output.  The new-file branch is a pure transform of the
file's lines and is embedded below; the diff branch's output is the parsed
diff held by the environment. -/

/-- The new-file loop of `load_full_file_with_diff`: `while (fgets(...) &&
file_line_count < MAX_FULL_FILE_LINES && line_count < 50)`; both counters
start at 0 and advance together, each produced line is `"+"` prefixed to
the file line with `type = '+'` and `is_diff_line = 1`. -/
def newFileLoop : List String → Nat → List NCursesFileLine
  | [], _ => []
  | l :: rest, n =>
    if n < MAX_FULL_FILE_LINES ∧ n < 50 then
      { line := "+" ++ l, type := '+', is_diff_line := true } :: newFileLoop rest (n + 1)
    else []

/-- The ContentLines produced for a brand-new untracked file whose content
is `fileLines` (the 1024-byte `fgets` buffer bound is not modelled; lines
are taken as already split). -/
def newFileContentLines (fileLines : List String) : List NCursesFileLine :=
  newFileLoop fileLines 0

/-- `load_full_file_with_diff` for a tracked file: resets scroll and cursor
and installs the parsed diff, capped at `MAX_FULL_FILE_LINES`.  (For a
new/untracked file the installed lines are `newFileContentLines` of the
file's content; the environment's `diffLines` holds whichever applies to
`filename`.) -/
def load_full_file_with_diff (env : GitEnv) (v : Viewer) (filename : String) : Viewer :=
  { v with file_lines := (env.diffLines filename).take MAX_FULL_FILE_LINES,
           file_scroll_offset := 0, file_cursor_line := 0 }

theorem newFileLoop_eq (fileLines : List String) :
    ∀ n : Nat, newFileLoop fileLines n
      = (fileLines.take (50 - n)).map
          (fun l => { line := "+" ++ l, type := '+', is_diff_line := true }) := by
  induction fileLines with
  | nil => intro n; simp [newFileLoop]
  | cons l rest ih =>
    intro n
    by_cases hn : n < 50
    · have hcond : n < MAX_FULL_FILE_LINES ∧ n < 50 := by
        refine ⟨?_, hn⟩
        simp only [MAX_FULL_FILE_LINES]
        omega
      rw [newFileLoop, if_pos hcond, ih (n + 1)]
      have hk : 50 - n = (50 - (n + 1)) + 1 := by omega
      rw [hk]
      simp [List.take_succ_cons]
    · have hcond : ¬ (n < MAX_FULL_FILE_LINES ∧ n < 50) := by
        intro h
        exact hn h.2
      rw [newFileLoop, if_neg hcond]
      have hk : 50 - n = 0 := by omega
      simp [hk]

/-- Claim C7: for a brand-new untracked file, `load_full_file_with_diff`
shows the first lines of the file itself — every produced ContentLine is
tagged as an addition (`type = '+'`, `is_diff_line = 1`), the shown text is
the `"+"`-prefixed first 50 file lines, and a file with 80 lines yields
exactly 50 ContentLines. -/
theorem load_new_untracked_file_spec (fileLines : List String) :
    (∀ fl ∈ newFileContentLines fileLines, fl.type = '+' ∧ fl.is_diff_line = true) ∧
    ((newFileContentLines fileLines).map NCursesFileLine.line
      = (fileLines.take 50).map (fun l => "+" ++ l)) ∧
    (fileLines.length = 80 → (newFileContentLines fileLines).length = 50) := by
  have heq : newFileContentLines fileLines
      = (fileLines.take 50).map
          (fun l => { line := "+" ++ l, type := '+', is_diff_line := true }) := by
    rw [newFileContentLines, newFileLoop_eq fileLines 0]
  refine ⟨?_, ?_, ?_⟩
  · intro fl hfl
    rw [heq] at hfl
    rcases List.mem_map.mp hfl with ⟨l, _, hl⟩
    rw [← hl]
    exact ⟨rfl, rfl⟩
  · rw [heq, List.map_map]
    rfl
  · intro h80
    rw [heq]
    simp [h80]

/-- Witness for `load_new_untracked_file_spec`: an 80-line file produces
exactly 50 addition lines. -/
theorem load_new_untracked_file_witness :
    (newFileContentLines (List.replicate 80 "x")).length = 50 :=
  (load_new_untracked_file_spec (List.replicate 80 "x")).2.2 (by simp)

/-! ### Branch commit loading and parsing -/

/-- `load_branch_commits` (src/ncurses_diff_viewer.c:5301-5321): memoized —
if `current_branch_for_commits` already equals the requested branch the
viewer is untouched; otherwise the commit texts for the branch are loaded
(at most `MAX_COMMITS`) and the memo name is updated. -/
def load_branch_commits (env : GitEnv) (v : Viewer) (branch_name : String) : Viewer :=
  if v.current_branch_for_commits = branch_name then v
  else
    { v with branch_commits := (env.branchCommitTexts branch_name).take MAX_COMMITS,
             current_branch_for_commits := branch_name }

/-- Line classification in `parse_branch_commits_to_lines`: lines before a
newline are tagged 'h' for `commit ` headers, 'i' for `Author:`/`Date:`
lines, and ' ' otherwise. -/
def classifyBranchLine (s : String) : Char :=
  if s.startsWith "commit " then 'h'
  else if s.startsWith "Author:" ∨ s.startsWith "Date:" then 'i'
  else ' '

/-- The lines one commit text contributes: each newline-terminated segment,
classified; then the trailing segment, if non-empty, always with type ' '
(the C code classifies only the segments found before a newline). -/
def branchCommitLines (s : String) : List NCursesFileLine :=
  let parts := s.splitOn "\n"
  (parts.dropLast.map fun seg =>
    { line := seg, type := classifyBranchLine seg, is_diff_line := false }) ++
  (match parts.getLast? with
   | some last =>
     if last.length > 0 then [{ line := last, type := ' ', is_diff_line := false }] else []
   | none => [])

/-- Append respecting the `MAX_FULL_FILE_LINES` cap: every single push in
the C code is guarded by `file_line_count < MAX_FULL_FILE_LINES`. -/
def capAppend (cap : Nat) (acc : List NCursesFileLine) (xs : List NCursesFileLine) :
    List NCursesFileLine :=
  acc ++ xs.take (cap - acc.length)

/-- The commit loop of `parse_branch_commits_to_lines`: each commit's lines,
then one empty spacer line, all pushes cap-guarded. -/
def parseBranchLoop (cap : Nat) : List String → List NCursesFileLine → List NCursesFileLine
  | [], acc => acc
  | t :: rest, acc =>
    let acc1 := capAppend cap acc (branchCommitLines t)
    let acc2 := if acc1.length < cap then
        acc1 ++ [{ line := "", type := ' ', is_diff_line := false }]
      else acc1
    parseBranchLoop cap rest acc2

/-- `parse_branch_commits_to_lines` (src/ncurses_diff_viewer.c:5326-5393):
no-op when no branch commits are loaded; otherwise resets the content panel
and installs the parsed, spacer-separated commit lines. -/
def parse_branch_commits_to_lines (v : Viewer) : Viewer :=
  if v.branch_commits.length = 0 then v
  else
    { v with file_lines := parseBranchLoop MAX_FULL_FILE_LINES v.branch_commits [],
             file_scroll_offset := 0, file_cursor_line := 0 }

/-! ### Background fetch (claims C1, C4) -/

/-- The result of the non-blocking `waitpid(fetch_pid, &status, WNOHANG)`
poll in `check_background_fetch`. -/
inductive WaitResult where
  | completed | stillRunning | error
deriving DecidableEq, Repr

/-- The panel refresh performed when the fetch child is reaped
(src/ncurses_diff_viewer.c:5440-5442). -/
def cbf_refresh_panels (env : GitEnv) (v : Viewer) : Viewer :=
  get_ncurses_git_branches env (get_commit_history env (get_ncurses_changed_files env v))

/-- The file-selection restore step of `check_background_fetch`
(src/ncurses_diff_viewer.c:5444-5463): `pSel`, `pCursor` and `pScroll` are
the positions remembered before the refresh.  The selection is restored
only when still below the new file count; in file modes the selected
file's diff is reloaded and cursor/scroll are restored where still valid. -/
def cbf_restore_file_positions (env : GitEnv) (pSel pCursor pScroll : Nat)
    (v : Viewer) : Viewer :=
  if pSel < v.files.length then
    let v1 : Viewer := { v with selected_file := pSel }
    if (v1.current_mode = .fileList ∨ v1.current_mode = .fileView)
        ∧ 0 < v1.files.length then
      let v2 := load_full_file_with_diff env v1
        ((v1.files.getD v1.selected_file default).filename)
      let v3 := if pCursor < v2.file_lines.length then
          { v2 with file_cursor_line := pCursor } else v2
      if pScroll < v3.file_lines.length then
        { v3 with file_scroll_offset := pScroll } else v3
    else v1
  else v

/-- The branch-mode refresh step of `check_background_fetch`
(src/ncurses_diff_viewer.c:5465-5484). -/
def cbf_refresh_branch_view (env : GitEnv) (v : Viewer) : Viewer :=
  if v.current_mode = .branchList ∨ v.current_mode = .branchView then
    if 0 < v.branches.length ∧ 0 < v.current_branch_for_commits.length then
      let v1 := load_branch_commits env v v.current_branch_for_commits
      if v1.current_mode = .branchView then
        let prevCursor := v1.file_cursor_line
        let prevScroll := v1.file_scroll_offset
        let v2 := parse_branch_commits_to_lines v1
        let v3 := if prevCursor < v2.file_lines.length then
            { v2 with file_cursor_line := prevCursor } else v2
        if prevScroll < v3.file_lines.length then
          { v3 with file_scroll_offset := prevScroll } else v3
      else v1
    else v
  else v

/-- `check_background_fetch` (src/ncurses_diff_viewer.c:5421-5496).  When
the fetch child has exited: clear the in-progress flag, refresh the file,
commit and branch panels, restore the remembered file selection only when
it is still below the new file count (otherwise the stale value stays),
restore cursor/scroll where still valid, refresh branch commits when in a
branch mode, and start the "Synced!" animation.  On a waitpid error the
flag is cleared and the status returns to idle. -/
def check_background_fetch (env : GitEnv) (wr : WaitResult) (v : Viewer) : Viewer :=
  if ¬ v.fetch_in_progress then v
  else
    match wr with
    | .stillRunning => v
    | .error =>
      { v with fetch_in_progress := false, fetch_pid := -1, sync_status := .idle }
    | .completed =>
      let v1 : Viewer := { v with fetch_in_progress := false, fetch_pid := -1 }
      let v4 := cbf_refresh_branch_view env
        (cbf_restore_file_positions env v1.selected_file v1.file_cursor_line
          v1.file_scroll_offset (cbf_refresh_panels env v1))
      { v4 with sync_status := .syncedAppearing, animation_frame := 0,
                text_char_count := 0 }

/-- `start_background_fetch` (src/ncurses_diff_viewer.c:5398-5416): returns
unchanged when a fetch is already running or a critical operation is in
progress; otherwise calls `fork()` (result in `env.fetchForkPid`; the
returned flag records that a fork was performed) and, in the parent on
success, marks the fetch in progress and starts the "Fetching" animation. -/
def start_background_fetch (env : GitEnv) (v : Viewer) : Viewer × Bool :=
  if v.fetch_in_progress ∨ v.critical_operation_in_progress then (v, false)
  else
    let v1 : Viewer := { v with fetch_pid := env.fetchForkPid }
    if 0 < env.fetchForkPid then
      ({ v1 with fetch_in_progress := true, sync_status := .syncingAppearing,
                 animation_frame := 0, text_char_count := 0 }, true)
    else (v1, true)

/-- The animation part of `update_sync_status`
(src/ncurses_diff_viewer.c:2573-2817): advances the status-bar text
animation one tick, wraps the spinner frame, and advances the two
branch-row animations.  It never touches `fetch_in_progress`,
`critical_operation_in_progress` or `last_sync_time` and never forks. -/
def advance_sync_animation (v : Viewer) : Viewer :=
  let v1 :=
    if v.sync_status ≠ .idle then
      let w : Viewer := { v with animation_frame := v.animation_frame + 1 }
      if 1 ≤ w.sync_status.toNat ∧ w.sync_status.toNat ≤ 3 then
        if w.sync_status = .syncingAppearing then
          let u : Viewer := { w with text_char_count := ((w.animation_frame / 2 : Nat) : Int) }
          if 8 ≤ u.text_char_count then
            { u with text_char_count := 8, sync_status := .syncingVisible,
                     animation_frame := 0 }
          else u
        else if w.sync_status = .syncingVisible then
          if 48 ≤ w.animation_frame then
            { w with sync_status := .syncingDisappearing, animation_frame := 0,
                     text_char_count := 8 }
          else w
        else if w.sync_status = .syncingDisappearing then
          let u : Viewer := { w with text_char_count := 8 - ((w.animation_frame / 2 : Nat) : Int) }
          if u.text_char_count ≤ 0 then
            { u with text_char_count := 0, sync_status := .syncedAppearing,
                     animation_frame := 0 }
          else u
        else w
      else if 4 ≤ w.sync_status.toNat ∧ w.sync_status.toNat ≤ 6 then
        if w.sync_status = .pushingAppearing then
          let u : Viewer := { w with text_char_count := (w.animation_frame : Int) }
          if 7 ≤ u.text_char_count then
            { u with text_char_count := 7, sync_status := .pushingVisible,
                     animation_frame := 0 }
          else u
        else if w.sync_status = .pushingVisible then
          w
        else if w.sync_status = .pushingDisappearing then
          let u : Viewer := { w with text_char_count := 7 - (w.animation_frame : Int) }
          if u.text_char_count ≤ 0 then
            { u with text_char_count := 0, sync_status := .pushedAppearing,
                     animation_frame := 0 }
          else u
        else w
      else if 7 ≤ w.sync_status.toNat ∧ w.sync_status.toNat ≤ 9 then
        if w.sync_status = .pullingAppearing then
          let u : Viewer := { w with text_char_count := ((w.animation_frame / 2 : Nat) : Int) }
          if 7 ≤ u.text_char_count then
            { u with text_char_count := 7, sync_status := .pullingVisible,
                     animation_frame := 0 }
          else u
        else if w.sync_status = .pullingVisible then
          if 24 ≤ w.animation_frame then
            { w with sync_status := .pullingDisappearing, animation_frame := 0,
                     text_char_count := 7 }
          else w
        else if w.sync_status = .pullingDisappearing then
          let u : Viewer := { w with text_char_count := 7 - ((w.animation_frame / 2 : Nat) : Int) }
          if u.text_char_count ≤ 0 then
            { u with text_char_count := 0, sync_status := .pulledAppearing,
                     animation_frame := 0 }
          else u
        else w
      else if 10 ≤ w.sync_status.toNat ∧ w.sync_status.toNat ≤ 12 then
        if w.sync_status = .syncedAppearing then
          let u : Viewer := { w with text_char_count := ((w.animation_frame / 2 : Nat) : Int) }
          if 7 ≤ u.text_char_count then
            { u with text_char_count := 7, sync_status := .syncedVisible,
                     animation_frame := 0 }
          else u
        else if w.sync_status = .syncedVisible then
          if 60 ≤ w.animation_frame then
            { w with sync_status := .syncedDisappearing, animation_frame := 0,
                     text_char_count := 7 }
          else w
        else if w.sync_status = .syncedDisappearing then
          let u : Viewer := { w with text_char_count := 7 - ((w.animation_frame / 2 : Nat) : Int) }
          if u.text_char_count ≤ 0 then
            { u with text_char_count := 0, sync_status := .idle }
          else u
        else w
      else if 13 ≤ w.sync_status.toNat ∧ w.sync_status.toNat ≤ 15 then
        if w.sync_status = .pushedAppearing then
          let u : Viewer := { w with text_char_count := (w.animation_frame : Int) }
          if 7 ≤ u.text_char_count then
            { u with text_char_count := 7, sync_status := .pushedVisible,
                     animation_frame := 0 }
          else u
        else if w.sync_status = .pushedVisible then
          if 100 ≤ w.animation_frame then
            { w with sync_status := .pushedDisappearing, animation_frame := 0,
                     text_char_count := 7 }
          else w
        else if w.sync_status = .pushedDisappearing then
          let u : Viewer := { w with text_char_count := 7 - (w.animation_frame : Int) }
          if u.text_char_count ≤ 0 then
            { u with text_char_count := 0, sync_status := .idle }
          else u
        else w
      else if 16 ≤ w.sync_status.toNat ∧ w.sync_status.toNat ≤ 18 then
        if w.sync_status = .pulledAppearing then
          let u : Viewer := { w with text_char_count := ((w.animation_frame / 2 : Nat) : Int) }
          if 7 ≤ u.text_char_count then
            { u with text_char_count := 7, sync_status := .pulledVisible,
                     animation_frame := 0 }
          else u
        else if w.sync_status = .pulledVisible then
          if 40 ≤ w.animation_frame then
            { w with sync_status := .pulledDisappearing, animation_frame := 0,
                     text_char_count := 7 }
          else w
        else if w.sync_status = .pulledDisappearing then
          let u : Viewer := { w with text_char_count := 7 - ((w.animation_frame / 2 : Nat) : Int) }
          if u.text_char_count ≤ 0 then
            { u with text_char_count := 0, sync_status := .idle }
          else u
        else w
      else w
    else v
  let v2 : Viewer :=
    { v1 with spinner_frame := if 100 < v1.spinner_frame + 1 then 0 else v1.spinner_frame + 1 }
  if v2.branch_push_status ≠ .idle ∨ v2.branch_pull_status ≠ .idle then
    let w : Viewer := { v2 with branch_animation_frame := v2.branch_animation_frame + 1 }
    let w1 :=
      if 13 ≤ w.branch_push_status.toNat ∧ w.branch_push_status.toNat ≤ 15 then
        if w.branch_push_status = .pushedAppearing then
          let u : Viewer := { w with branch_text_char_count := (w.branch_animation_frame : Int) }
          if 7 ≤ u.branch_text_char_count then
            { u with branch_text_char_count := 7, branch_push_status := .pushedVisible,
                     branch_animation_frame := 0 }
          else u
        else if w.branch_push_status = .pushedVisible then
          if 100 ≤ w.branch_animation_frame then
            { w with branch_push_status := .pushedDisappearing,
                     branch_animation_frame := 0, branch_text_char_count := 7 }
          else w
        else if w.branch_push_status = .pushedDisappearing then
          let u : Viewer := { w with branch_text_char_count := 7 - (w.branch_animation_frame : Int) }
          if u.branch_text_char_count ≤ 0 then
            { u with branch_text_char_count := 0, branch_push_status := .idle,
                     pushing_branch_index := -1 }
          else u
        else w
      else w
    if 16 ≤ w1.branch_pull_status.toNat ∧ w1.branch_pull_status.toNat ≤ 18 then
      if w1.branch_pull_status = .pulledAppearing then
        let u : Viewer := { w1 with branch_text_char_count := ((w1.branch_animation_frame / 2 : Nat) : Int) }
        if 7 ≤ u.branch_text_char_count then
          { u with branch_text_char_count := 7, branch_pull_status := .pulledVisible,
                   branch_animation_frame := 0 }
        else u
      else if w1.branch_pull_status = .pulledVisible then
        if 40 ≤ w1.branch_animation_frame then
          { w1 with branch_pull_status := .pulledDisappearing,
                    branch_animation_frame := 0, branch_text_char_count := 7 }
        else w1
      else if w1.branch_pull_status = .pulledDisappearing then
        let u : Viewer := { w1 with branch_text_char_count := 7 - ((w1.branch_animation_frame / 2 : Nat) : Int) }
        if u.branch_text_char_count ≤ 0 then
          { u with branch_text_char_count := 0, branch_pull_status := .idle,
                   pulling_branch_index := -1 }
        else u
      else w1
    else w1
  else v2

/-- `update_sync_status` (src/ncurses_diff_viewer.c:2553-2818): when at
least 30 seconds have elapsed since `last_sync_time` and neither the
critical-operation flag nor the fetch-in-progress flag is set, it records
the sync time and starts a background fetch and returns; otherwise it polls
the background fetch and advances the animations.  The returned flag
records whether a fetch fork was performed. -/
def update_sync_status (env : GitEnv) (wr : WaitResult) (now : Int) (v : Viewer) :
    Viewer × Bool :=
  if 30 ≤ now - v.last_sync_time ∧ ¬ v.critical_operation_in_progress
      ∧ ¬ v.fetch_in_progress then
    start_background_fetch env { v with last_sync_time := now }
  else
    (advance_sync_animation (check_background_fetch env wr v), false)

/-- A neutral environment: every external call yields the empty/failed
result, the fetch fork succeeds with pid 123.  Concrete test states adjust
individual fields. -/
def env0 : GitEnv :=
  { changedFiles := [], commits := [], branches := [], stashes := [],
    diffLines := fun _ => [], branchCommitTexts := fun _ => [],
    commitResult := 0, currentBranch := none, hasUpstream := false,
    upstreamRef := none, upstreamChoice := none, setUpstreamResult := 0,
    commitsAhead := 0, commitsBehind := 0, divergedConfirm := false,
    forkOk := true, pushResult := 0, deleteDialogChoice := .deleteCancel,
    deleteResult := false, dropResult := false, fetchForkPid := 123 }

/-- Claim C4: a background fetch is never started while another fetch is in
progress or while a critical operation is in progress —
`start_background_fetch` forks only when both flags are clear, and
`update_sync_status` initiates a fetch only when at least 30 seconds have
elapsed since `last_sync_time` and neither flag is set. -/
theorem background_fetch_gating (env : GitEnv) (wr : WaitResult) (now : Int) (v : Viewer) :
    ((start_background_fetch env v).2 = true →
      v.fetch_in_progress = false ∧ v.critical_operation_in_progress = false) ∧
    ((update_sync_status env wr now v).2 = true →
      30 ≤ now - v.last_sync_time ∧ v.fetch_in_progress = false ∧
        v.critical_operation_in_progress = false) := by
  have hstart : ∀ w : Viewer, (start_background_fetch env w).2 = true →
      w.fetch_in_progress = false ∧ w.critical_operation_in_progress = false := by
    intro w h
    by_cases hg : w.fetch_in_progress ∨ w.critical_operation_in_progress
    · rw [start_background_fetch, if_pos hg] at h
      exact absurd h (by simp)
    · simp only [not_or, Bool.not_eq_true] at hg
      exact hg
  constructor
  · exact hstart v
  · intro h
    by_cases hcond : 30 ≤ now - v.last_sync_time ∧ ¬ v.critical_operation_in_progress
        ∧ ¬ v.fetch_in_progress
    · refine ⟨hcond.1, ?_, ?_⟩
      · simpa using hcond.2.2
      · simpa using hcond.2.1
    · rw [update_sync_status, if_neg hcond] at h
      exact absurd h (by simp)

/-- Witness for `background_fetch_gating`: the idle viewer at time 30 does
start a fetch (the conditions hold and the returned flag is set). -/
theorem background_fetch_gating_witness :
    (30 : Int) ≤ 30 - viewer0.last_sync_time ∧ viewer0.fetch_in_progress = false ∧
      viewer0.critical_operation_in_progress = false :=
  (background_fetch_gating env0 .stillRunning 30 viewer0).2 (by decide)

/-- `commit_marked_files` (src/ncurses_diff_viewer.c:1089-1148): rejects an
empty title; `git add`s the marked files and runs `git commit` (exit status
`env.commitResult`); on success refreshes the file, commit and branch
panels, resets or clamps `selected_file` against the new file count, and
reloads the selected file's diff.  Returns the C result (1 success / 0). -/
def commit_marked_files (env : GitEnv) (v : Viewer)
    (commit_title commit_message : String) : Viewer × Int :=
  if commit_title = "" then (v, 0)
  else if env.commitResult = 0 then
    let v1 := get_ncurses_git_branches env
      (get_commit_history env (get_ncurses_changed_files env v))
    let v2 :=
      if v1.files.length = 0 then
        { v1 with selected_file := 0, file_lines := [], file_scroll_offset := 0 }
      else if v1.files.length ≤ v1.selected_file then
        { v1 with selected_file := v1.files.length - 1 }
      else v1
    let v3 :=
      if 0 < v2.files.length ∧ v2.selected_file < v2.files.length then
        load_full_file_with_diff env v2 ((v2.files.getD v2.selected_file default).filename)
      else v2
    (v3, 1)
  else (v, 0)

/-- A viewer holding two changed files with the second one selected, in
commit-list mode, with a background fetch in flight. -/
def viewerShrunk : Viewer :=
  { viewer0 with
      files := [{ filename := "f0", status := 'M', marked_for_commit := false },
                { filename := "f1", status := 'M', marked_for_commit := false }],
      selected_file := 1, fetch_in_progress := true,
      current_mode := Mode.commitList }

/-- An environment whose refreshed file list has shrunk to a single file. -/
def envShrunk : GitEnv :=
  { env0 with
      changedFiles := [{ filename := "f0", status := 'M', marked_for_commit := false }] }

/-- Claim C1, counterexample.  Reaping a completed background fetch while
the file list shrinks from 2 entries to 1 with `selected_file = 1`:
`check_background_fetch` only restores the remembered selection when it is
still below the new count and never clamps it, so afterwards
`selected_file = 1` even though the list now has one entry — not `≤ M-1 = 0`. -/
theorem check_background_fetch_unclamped_selection :
    viewerShrunk.files.length = 2 ∧
    (check_background_fetch envShrunk .completed viewerShrunk).files.length = 1 ∧
    (check_background_fetch envShrunk .completed viewerShrunk).selected_file = 1 := by
  refine ⟨rfl, ?_, ?_⟩ <;> decide

theorem commit_marked_files_clamp (env : GitEnv) (v : Viewer) (title msg : String)
    (ht : title ≠ "") (hr : env.commitResult = 0) :
    ((commit_marked_files env v title msg).1.files.length = 0 →
      (commit_marked_files env v title msg).1.selected_file = 0) ∧
    (0 < (commit_marked_files env v title msg).1.files.length →
      (commit_marked_files env v title msg).1.selected_file
        < (commit_marked_files env v title msg).1.files.length) := by
  unfold commit_marked_files
  rw [if_neg ht, if_pos hr]
  simp only [get_ncurses_git_branches, get_commit_history, get_ncurses_changed_files,
             load_full_file_with_diff]
  split_ifs <;> constructor <;> intro h <;> simp_all <;> omega

theorem cbf_refresh_panels_selections (env : GitEnv) (v : Viewer) :
    (cbf_refresh_panels env v).selected_file = v.selected_file ∧
    (cbf_refresh_panels env v).selected_commit = v.selected_commit ∧
    (cbf_refresh_panels env v).selected_branch = v.selected_branch ∧
    (cbf_refresh_panels env v).selected_stash = v.selected_stash :=
  ⟨rfl, rfl, rfl, rfl⟩

theorem cbf_restore_selections (env : GitEnv) (pSel pCursor pScroll : Nat) (v : Viewer)
    (h : v.selected_file = pSel) :
    (cbf_restore_file_positions env pSel pCursor pScroll v).selected_file = pSel ∧
    (cbf_restore_file_positions env pSel pCursor pScroll v).selected_commit
      = v.selected_commit ∧
    (cbf_restore_file_positions env pSel pCursor pScroll v).selected_branch
      = v.selected_branch ∧
    (cbf_restore_file_positions env pSel pCursor pScroll v).selected_stash
      = v.selected_stash := by
  refine ⟨?_, ?_, ?_, ?_⟩ <;>
    (unfold cbf_restore_file_positions load_full_file_with_diff
     simp only [apply_ite Viewer.selected_file, apply_ite Viewer.selected_commit,
                apply_ite Viewer.selected_branch, apply_ite Viewer.selected_stash]
     split_ifs <;> simp [h])

theorem parse_branch_selections (v : Viewer) :
    (parse_branch_commits_to_lines v).selected_file = v.selected_file ∧
    (parse_branch_commits_to_lines v).selected_commit = v.selected_commit ∧
    (parse_branch_commits_to_lines v).selected_branch = v.selected_branch ∧
    (parse_branch_commits_to_lines v).selected_stash = v.selected_stash := by
  unfold parse_branch_commits_to_lines
  split_ifs <;> exact ⟨rfl, rfl, rfl, rfl⟩

theorem load_branch_commits_selections (env : GitEnv) (v : Viewer) (b : String) :
    (load_branch_commits env v b).selected_file = v.selected_file ∧
    (load_branch_commits env v b).selected_commit = v.selected_commit ∧
    (load_branch_commits env v b).selected_branch = v.selected_branch ∧
    (load_branch_commits env v b).selected_stash = v.selected_stash := by
  unfold load_branch_commits
  split_ifs <;> exact ⟨rfl, rfl, rfl, rfl⟩

theorem cbf_branch_view_selections (env : GitEnv) (v : Viewer) :
    (cbf_refresh_branch_view env v).selected_file = v.selected_file ∧
    (cbf_refresh_branch_view env v).selected_commit = v.selected_commit ∧
    (cbf_refresh_branch_view env v).selected_branch = v.selected_branch ∧
    (cbf_refresh_branch_view env v).selected_stash = v.selected_stash := by
  have hl := load_branch_commits_selections env v v.current_branch_for_commits
  have hp := parse_branch_selections (load_branch_commits env v v.current_branch_for_commits)
  refine ⟨?_, ?_, ?_, ?_⟩ <;>
    (unfold cbf_refresh_branch_view
     simp only [apply_ite Viewer.selected_file, apply_ite Viewer.selected_commit,
                apply_ite Viewer.selected_branch, apply_ite Viewer.selected_stash]
     split_ifs <;>
       simp [hl.1, hl.2.1, hl.2.2.1, hl.2.2.2, hp.1, hp.2.1, hp.2.2.1, hp.2.2.2])

theorem check_background_fetch_selections_unchanged (env : GitEnv) (wr : WaitResult)
    (v : Viewer) :
    (check_background_fetch env wr v).selected_file = v.selected_file ∧
    (check_background_fetch env wr v).selected_commit = v.selected_commit ∧
    (check_background_fetch env wr v).selected_branch = v.selected_branch ∧
    (check_background_fetch env wr v).selected_stash = v.selected_stash := by
  unfold check_background_fetch
  by_cases hf : ¬ v.fetch_in_progress = true
  · rw [if_pos hf]
    exact ⟨rfl, rfl, rfl, rfl⟩
  · rw [if_neg hf]
    cases wr
    · have h1 := cbf_refresh_panels_selections env
        { v with fetch_in_progress := false, fetch_pid := -1 }
      have h2 := cbf_restore_selections env v.selected_file v.file_cursor_line
        v.file_scroll_offset
        (cbf_refresh_panels env { v with fetch_in_progress := false, fetch_pid := -1 })
        h1.1
      have h3 := cbf_branch_view_selections env
        (cbf_restore_file_positions env v.selected_file v.file_cursor_line
          v.file_scroll_offset
          (cbf_refresh_panels env { v with fetch_in_progress := false, fetch_pid := -1 }))
      simp only []
      refine ⟨?_, ?_, ?_, ?_⟩
      · exact h3.1.trans h2.1
      · exact h3.2.1.trans (h2.2.1.trans h1.2.1)
      · exact h3.2.2.1.trans (h2.2.2.1.trans h1.2.2.1)
      · exact h3.2.2.2.trans (h2.2.2.2.trans h1.2.2.2)
    · exact ⟨rfl, rfl, rfl, rfl⟩
    · exact ⟨rfl, rfl, rfl, rfl⟩

theorem commit_marked_files_other_selections (env : GitEnv) (v : Viewer)
    (title msg : String) :
    (commit_marked_files env v title msg).1.selected_commit = v.selected_commit ∧
    (commit_marked_files env v title msg).1.selected_branch = v.selected_branch ∧
    (commit_marked_files env v title msg).1.selected_stash = v.selected_stash := by
  unfold commit_marked_files
  simp only [get_ncurses_git_branches, get_commit_history, get_ncurses_changed_files,
             load_full_file_with_diff]
  split_ifs <;> exact ⟨rfl, rfl, rfl⟩

/-- Claim C1, amended.  Only the refresh after committing marked files
clamps the file-list selection: on a successful commit, `selected_file`
ends within the new file list (or at 0 when the list is empty).  The refresh
performed when a completed background fetch is reaped does NOT clamp: every
selection index (file, commit, branch, stash) is left exactly as it was, so
a list that shrinks below its selection leaves the stale index out of range
(see the counterexample); likewise the commit refresh leaves the
commit/branch/stash selections unchanged. -/
theorem selection_clamp_amended (env : GitEnv) (v : Viewer) (title msg : String)
    (wr : WaitResult) :
    (title ≠ "" → env.commitResult = 0 →
      (((commit_marked_files env v title msg).1.files.length = 0 →
          (commit_marked_files env v title msg).1.selected_file = 0) ∧
       (0 < (commit_marked_files env v title msg).1.files.length →
          (commit_marked_files env v title msg).1.selected_file
            < (commit_marked_files env v title msg).1.files.length))) ∧
    (check_background_fetch env wr v).selected_file = v.selected_file ∧
    (check_background_fetch env wr v).selected_commit = v.selected_commit ∧
    (check_background_fetch env wr v).selected_branch = v.selected_branch ∧
    (check_background_fetch env wr v).selected_stash = v.selected_stash ∧
    (commit_marked_files env v title msg).1.selected_commit = v.selected_commit ∧
    (commit_marked_files env v title msg).1.selected_branch = v.selected_branch ∧
    (commit_marked_files env v title msg).1.selected_stash = v.selected_stash := by
  have hcbf := check_background_fetch_selections_unchanged env wr v
  have hcmf := commit_marked_files_other_selections env v title msg
  exact ⟨fun ht hr => commit_marked_files_clamp env v title msg ht hr,
         hcbf.1, hcbf.2.1, hcbf.2.2.1, hcbf.2.2.2, hcmf.1, hcmf.2.1, hcmf.2.2⟩

/-- Witness for `selection_clamp_amended`: committing with the file list
shrunk from 2 to 1 clamps `selected_file` to 0 (below the new count), while
reaping the background fetch on the same state leaves the stale selection 1
untouched. -/
theorem selection_clamp_amended_witness :
    (commit_marked_files envShrunk viewerShrunk "t" "m").1.selected_file
      < (commit_marked_files envShrunk viewerShrunk "t" "m").1.files.length ∧
    (check_background_fetch envShrunk .completed viewerShrunk).selected_file
      = viewerShrunk.selected_file :=
  ⟨((selection_clamp_amended envShrunk viewerShrunk "t" "m" .completed).1
      (by decide) (by decide)).2 (by decide),
   (selection_clamp_amended envShrunk viewerShrunk "t" "m" .completed).2.1⟩

/-! ### The key handler, specialised per key (handle_ncurses_diff_input)

`handle_ncurses_diff_input` (src/ncurses_diff_viewer.c:2823-3831) first
checks the global quit keys 'q'/'Q', then the number keys '1'..'5', then
dispatches on `current_mode`.  The functions below are the handler
specialised to one input key each — the key under study in a claim — with
every mode's switch arm for that key translated; for any other key the
global prefix does not match the keys modelled here, so the specialisations
start directly at the mode dispatch. -/

/-- The handler specialised to key 27 (ESC).  In `FILE_LIST` mode, ESC
returns 0 (exit).  In each view mode, the only statement of the `case 27`
arm assigns `current_mode` back to the originating list mode; in the other
list modes ESC (like Tab) goes back to `FILE_LIST`.  The `Int` result is
the handler's return value (0 exit / 1 continue). -/
def handle_escape (v : Viewer) : Viewer × Int :=
  match v.current_mode with
  | .fileList => (v, 0)
  | .fileView => ({ v with current_mode := .fileList }, 1)
  | .commitList => ({ v with current_mode := .fileList }, 1)
  | .commitView => ({ v with current_mode := .commitList }, 1)
  | .stashList => ({ v with current_mode := .fileList }, 1)
  | .stashView => ({ v with current_mode := .stashList }, 1)
  | .branchList => ({ v with current_mode := .fileList }, 1)
  | .branchView => ({ v with current_mode := .branchList }, 1)

/-- Claim C2: from every view mode, Escape returns to exactly the list mode
that produced that view mode — FileView to FileList, CommitView to
CommitList, StashView to StashList, BranchView to BranchList — changing no
other field, and the handler keeps running (returns 1). -/
theorem escape_returns_to_list_mode (v : Viewer) :
    (v.current_mode = .fileView →
      handle_escape v = ({ v with current_mode := .fileList }, 1)) ∧
    (v.current_mode = .commitView →
      handle_escape v = ({ v with current_mode := .commitList }, 1)) ∧
    (v.current_mode = .stashView →
      handle_escape v = ({ v with current_mode := .stashList }, 1)) ∧
    (v.current_mode = .branchView →
      handle_escape v = ({ v with current_mode := .branchList }, 1)) := by
  refine ⟨?_, ?_, ?_, ?_⟩ <;> intro hm <;> rw [handle_escape] <;> rw [hm]

/-- Witness for `escape_returns_to_list_mode`: a viewer in FileView mode. -/
theorem escape_returns_to_list_mode_witness :
    handle_escape { viewer0 with current_mode := .fileView }
      = ({ viewer0 with current_mode := .fileList }, 1) :=
  (escape_returns_to_list_mode { viewer0 with current_mode := .fileView }).1 rfl

/-- The handler specialised to key 'd'.  Only two modes have a `case 'd'`
arm: `STASH_LIST` (drop stash, src/ncurses_diff_viewer.c:3252-3269) and
`BRANCH_LIST` (delete branch, src/ncurses_diff_viewer.c:3417-3454).  In the
branch arm, deleting the current branch (`status == 1`) shows an error
popup and `break`s out of the switch — skipping the
`critical_operation_in_progress = 0` at the end of the arm. -/
def handle_key_d (env : GitEnv) (v : Viewer) : Viewer :=
  match v.current_mode with
  | .stashList =>
    if 0 < v.stashes.length ∧ v.selected_stash < v.stashes.length then
      let v1 : Viewer := { v with critical_operation_in_progress := true }
      let v2 :=
        if env.dropResult then
          let va := get_ncurses_git_stashes env v1
          if va.stashes.length ≤ va.selected_stash ∧ 0 < va.stashes.length then
            { va with selected_stash := va.stashes.length - 1 }
          else va
        else v1
      { v2 with critical_operation_in_progress := false }
    else v
  | .branchList =>
    if 0 < v.branches.length ∧ v.selected_branch < v.branches.length then
      let v1 : Viewer := { v with critical_operation_in_progress := true }
      if (v1.branches.getD v1.selected_branch default).status = 1 then
        v1
      else
        let v2 :=
          if env.deleteDialogChoice ≠ .deleteCancel then
            if env.deleteResult then
              let va := get_ncurses_git_branches env v1
              if va.branches.length ≤ va.selected_branch ∧ 0 < va.branches.length then
                { va with selected_branch := va.branches.length - 1 }
              else va
            else v1
          else v1
        { v2 with critical_operation_in_progress := false }
    else v
  | _ => v

/-- A clean BranchList-mode viewer whose selected branch is the current
branch "main" (`status = 1`). -/
def viewerCurBranch : Viewer :=
  { viewer0 with
      current_mode := Mode.branchList,
      branches := [{ name := "main", status := 1, commits_ahead := 0,
                     commits_behind := 0 }],
      selected_branch := 0 }

/-- Claim C9: the branch-delete arm taken when the selected branch is the
current branch sets `critical_operation_in_progress` and returns without
clearing it.  Starting from a clean state in BranchList mode with the
current branch "main" selected, pressing 'd' leaves the flag set — the
handler does not return with the flag equal to 0, so background fetches
stay disabled forever after. -/
theorem handle_key_d_leaves_critical_flag_set :
    viewerCurBranch.critical_operation_in_progress = false ∧
    (handle_key_d env0 viewerCurBranch).critical_operation_in_progress = true := by
  refine ⟨rfl, ?_⟩
  decide

/-! ### Push (claim C3) -/

/-- The externally visible steps of `push_commit`, in program order:
dialogs shown, the upstream-setting push command, and the `fork()` of a
push child (`forced` records the `--force-with-lease` variant). -/
inductive PushEvent where
  | errorPopup
  | upstreamDialog
  | runSetUpstream
  | divergedDialog
  | forkPush (forced : Bool)
deriving DecidableEq, Repr

/-- `check_branch_divergence` (src/git_integration.c:255-304): without a
remote tracking branch the counts stay 0 and the result is 0; otherwise the
ahead/behind counts are queried and the branch is diverged iff both are
positive. -/
def check_branch_divergence (env : GitEnv) : Int × Int × Bool :=
  match env.upstreamRef with
  | none => (0, 0, false)
  | some _ => (env.commitsAhead, env.commitsBehind,
               decide (0 < env.commitsAhead ∧ 0 < env.commitsBehind))

/-- `push_commit` (src/ncurses_diff_viewer.c:1322-1485).  Returns the new
viewer, the C return value, and the trace of externally visible events in
program order.  The upstream-less path runs the upstream dialog; the
upstream path checks divergence, shows the confirmation dialog when
diverged and aborts with 0 when the user declines, and only then forks the
push child (`--force-with-lease` when diverged was confirmed). -/
def push_commit (env : GitEnv) (v : Viewer) (commit_index : Int) :
    Viewer × Int × List PushEvent :=
  if commit_index < 0 ∨ (v.commits.length : Int) ≤ commit_index then (v, 0, [])
  else
    match env.currentBranch with
    | none => ({ v with sync_status := .idle }, 0, [.errorPopup])
    | some _ =>
      if ¬ env.hasUpstream then
        match env.upstreamChoice with
        | some _ =>
          if env.setUpstreamResult = 0 then
            (get_commit_history env
              { v with sync_status := .pushedAppearing, animation_frame := 0,
                       text_char_count := 0 },
             1, [.upstreamDialog, .runSetUpstream])
          else
            ({ v with sync_status := .idle }, 0,
             [.upstreamDialog, .runSetUpstream, .errorPopup])
        | none => ({ v with sync_status := .idle }, 0, [.upstreamDialog])
      else
        let is_diverged := (check_branch_divergence env).2.2
        if is_diverged ∧ ¬ env.divergedConfirm then
          ({ v with sync_status := .idle }, 0, [.divergedDialog])
        else
          let v1 : Viewer :=
            match List.findIdx? (fun b => b.status == 1) v.branches with
            | some i => { v with pushing_branch_index := (i : Int) }
            | none => v
          let v2 : Viewer :=
            { v1 with branch_push_status := .pushingVisible,
                      branch_animation_frame := 0, branch_text_char_count := 7 }
          let evs := (if is_diverged then [PushEvent.divergedDialog] else [])
                      ++ [PushEvent.forkPush is_diverged]
          if env.forkOk ∧ env.pushResult = 0 then
            (get_ncurses_git_branches env (get_commit_history env
               { v2 with sync_status := .pushedAppearing, animation_frame := 0,
                         text_char_count := 0,
                         branch_push_status := .pushedAppearing,
                         branch_animation_frame := 0, branch_text_char_count := 0 }),
             1, evs)
          else
            ({ v2 with sync_status := .idle, pushing_branch_index := -1,
                       branch_push_status := .idle }, 0, evs ++ [.errorPopup])

/-- The handler specialised to key 'P' (uppercase).  Only `COMMIT_LIST` has
a `case 'P'` arm (src/ncurses_diff_viewer.c:3090-3106): it raises the
critical-operation flag, shows "Pushing" immediately, calls `push_commit`
on the selected commit, and clears the flag.  The second component carries
`push_commit`'s return value and event trace when it was invoked. -/
def handle_key_P (env : GitEnv) (v : Viewer) : Viewer × Option (Int × List PushEvent) :=
  match v.current_mode with
  | .commitList =>
    if 0 < v.commits.length ∧ v.selected_commit < v.commits.length then
      let v1 : Viewer :=
        { v with critical_operation_in_progress := true,
                 sync_status := .pushingVisible, animation_frame := 0,
                 text_char_count := 7 }
      let r := push_commit env v1 (v1.selected_commit : Int)
      ({ r.1 with critical_operation_in_progress := false }, some (r.2.1, r.2.2))
    else (v, none)
  | _ => (v, none)

/-- Claim C3: in CommitList mode with at least one commit selected, on a
branch with an upstream that is diverged (ahead > 0 and behind > 0),
pressing 'P' invokes `push_commit`, which shows the divergence confirmation
dialog strictly before any push fork; and when the user declines,
`push_commit` returns 0, no push process is forked, and the commit list
(hence every `is_pushed` flag) is unchanged. -/
theorem push_diverged_requires_confirmation (env : GitEnv) (v : Viewer)
    (hmode : v.current_mode = .commitList)
    (hc : 0 < v.commits.length) (hsel : v.selected_commit < v.commits.length)
    (hbr : env.currentBranch.isSome = true) (hup : env.hasUpstream = true)
    (href : env.upstreamRef.isSome = true)
    (ha : 0 < env.commitsAhead) (hbh : 0 < env.commitsBehind) :
    ∃ ret evs, (handle_key_P env v).2 = some (ret, evs) ∧
      (∃ pre post, evs = pre ++ PushEvent.divergedDialog :: post ∧
        ∀ e ∈ pre, ∀ f, e ≠ PushEvent.forkPush f) ∧
      (env.divergedConfirm = false →
        ret = 0 ∧ (∀ f, PushEvent.forkPush f ∉ evs) ∧
        (handle_key_P env v).1.commits = v.commits) := by
  obtain ⟨b, hcb⟩ := Option.isSome_iff_exists.mp hbr
  obtain ⟨r, hur⟩ := Option.isSome_iff_exists.mp href
  have hdvg : (check_branch_divergence env).2.2 = true := by
    simp [check_branch_divergence, hur, ha, hbh]
  have hguard : ¬ (((v.selected_commit : Nat) : Int) < 0 ∨
      (v.commits.length : Int) ≤ ((v.selected_commit : Nat) : Int)) := by
    push_neg
    exact ⟨Int.natCast_nonneg _, by exact_mod_cast hsel⟩
  simp only [handle_key_P, hmode]
  rw [if_pos ⟨hc, hsel⟩]
  simp only [push_commit, hcb, hup, hdvg, not_true, if_neg hguard]
  by_cases hconf : env.divergedConfirm
  · simp only [hconf]
    by_cases hfork : env.forkOk ∧ env.pushResult = 0
    · rw [if_pos hfork]
      refine ⟨1, [PushEvent.divergedDialog, PushEvent.forkPush true], by simp, ?_, ?_⟩
      · exact ⟨[], [PushEvent.forkPush true], by simp, by simp⟩
      · intro h
        exact absurd h (by simp)
    · rw [if_neg hfork]
      refine ⟨0, [PushEvent.divergedDialog, PushEvent.forkPush true, PushEvent.errorPopup],
        by simp, ?_, ?_⟩
      · exact ⟨[], [PushEvent.forkPush true, PushEvent.errorPopup], by simp, by simp⟩
      · intro h
        exact absurd h (by simp)
  · simp only [hconf]
    refine ⟨0, [PushEvent.divergedDialog], by simp, ?_, ?_⟩
    · exact ⟨[], [], by simp, by simp⟩
    · intro _
      refine ⟨rfl, by simp, rfl⟩

/-- A CommitList-mode viewer with one unpushed commit selected. -/
def viewerOneCommit : Viewer :=
  { viewer0 with
      current_mode := Mode.commitList,
      commits := [{ hash := "abc1234", author_initials := "md",
                    title := "work", is_pushed := false }] }

/-- An environment describing a diverged branch (1 ahead, 1 behind) with an
upstream, where the user declines the confirmation dialog. -/
def envDiverged : GitEnv :=
  { env0 with
      currentBranch := some "main", hasUpstream := true,
      upstreamRef := some "origin/main",
      commitsAhead := 1, commitsBehind := 1, divergedConfirm := false }

/-- Witness for `push_diverged_requires_confirmation` at the concrete
diverged, declined configuration. -/
theorem push_diverged_requires_confirmation_witness :
    ∃ ret evs, (handle_key_P envDiverged viewerOneCommit).2 = some (ret, evs) ∧
      (∃ pre post, evs = pre ++ PushEvent.divergedDialog :: post ∧
        ∀ e ∈ pre, ∀ f, e ≠ PushEvent.forkPush f) ∧
      (envDiverged.divergedConfirm = false →
        ret = 0 ∧ (∀ f, PushEvent.forkPush f ∉ evs) ∧
        (handle_key_P envDiverged viewerOneCommit).1.commits = viewerOneCommit.commits) :=
  push_diverged_requires_confirmation envDiverged viewerOneCommit
    (by decide) (by decide) (by decide) (by decide) (by decide) (by decide)
    (by decide) (by decide)

/-! ### Smart cursor movement (claim C6)

`move_cursor_smart` (src/ncurses_diff_viewer.c:5502-5566) steps the cursor
in `direction`, skipping lines that are empty after trimming leading
spaces/tabs, clamping at the boundaries, with an attempt budget of
`file_line_count`.  The trailing auto-scroll adjustment only writes
`file_scroll_offset` using the ncurses window height (external) and does
not move the cursor; the cursor computation is embedded here. -/

/-- A line is skipped when, after `while (*trimmed == ' ' || *trimmed ==
'\t') trimmed++;`, the remainder is empty. -/
def lineIsBlankAfterTrim (s : String) : Bool :=
  (s.toList.dropWhile (fun c => c == ' ' || c == '\t')).isEmpty

/-- Blankness of line `i` of the content panel (out-of-range reads use the
default record, matching the loop's bounds checks which prevent them). -/
def blankAt (lines : List NCursesFileLine) (i : Nat) : Bool :=
  lineIsBlankAfterTrim ((lines.getD i default).line)

/-- The do-while loop of `move_cursor_smart`: step, bounds-check, stop on a
non-blank line or when the attempt budget `maxAtt` is spent. -/
def smartGo (lines : List NCursesFileLine) (dir : Int) (maxAtt : Nat)
    (c : Int) (attempts : Nat) : Int :=
  let c' := c + dir
  let a' := attempts + 1
  if c' < 0 then 0
  else if (lines.length : Int) ≤ c' then (lines.length : Int) - 1
  else if ¬ blankAt lines c'.toNat then c'
  else if h : maxAtt ≤ a' then c'
  else smartGo lines dir maxAtt c' a'
termination_by maxAtt - attempts
decreasing_by omega

/-- The cursor position produced by `move_cursor_smart` on a panel holding
`lines`, starting at `cursor`, moving in `dir`: a no-op on an empty panel,
otherwise the loop with `max_attempts = file_line_count`. -/
def move_cursor_smart_cursor (lines : List NCursesFileLine) (cursor : Nat)
    (dir : Int) : Nat :=
  if lines.length = 0 then cursor
  else (smartGo lines dir lines.length (cursor : Int) 0).toNat

theorem smartGo_down_lands (lines : List NCursesFileLine) (maxAtt : Nat) :
    ∀ (K p attempts : Nat),
      (∀ i, i < K → blankAt lines (p + 1 + i) = true) →
      p + K + 1 < lines.length →
      blankAt lines (p + K + 1) = false →
      attempts + K + 1 ≤ maxAtt →
      smartGo lines 1 maxAtt (p : Int) attempts = ((p + K + 1 : Nat) : Int) := by
  intro K
  induction K with
  | zero =>
    intro p attempts _ hlt hnb _
    rw [smartGo]
    rw [if_neg (by omega)]
    rw [if_neg (by omega : ¬ ((lines.length : Int) ≤ (p : Int) + 1))]
    rw [Int.toNat_natCast_add_one]
    have hnb' : blankAt lines (p + 1) = false := by simpa using hnb
    rw [if_pos (by simp [hnb'])]
    push_cast
    ring
  | succ K ih =>
    intro p attempts hblank hlt hnb hbud
    rw [smartGo]
    rw [if_neg (by omega)]
    rw [if_neg (by omega : ¬ ((lines.length : Int) ≤ (p : Int) + 1))]
    rw [Int.toNat_natCast_add_one]
    have hb1 : blankAt lines (p + 1) = true := by
      have h := hblank 0 (by omega)
      simpa using h
    rw [if_neg (by simp [hb1])]
    rw [dif_neg (by omega : ¬ (maxAtt ≤ attempts + 1))]
    have hc : (p : Int) + 1 = ((p + 1 : Nat) : Int) := by push_cast; ring
    rw [hc]
    have heq : (p + 1) + K + 1 = p + (K + 1) + 1 := by omega
    rw [← heq]
    apply ih (p + 1) (attempts + 1)
    · intro i hi
      have h := hblank (i + 1) (by omega)
      rw [show p + 1 + 1 + i = p + 1 + (i + 1) from by omega]
      exact h
    · omega
    · rw [heq]; exact hnb
    · omega

theorem smartGo_down_boundary (lines : List NCursesFileLine) (maxAtt : Nat) :
    ∀ (fuel p attempts : Nat),
      lines.length - 1 - p = fuel →
      p < lines.length →
      (∀ i, p < i → i < lines.length → blankAt lines i = true) →
      attempts + (lines.length - p) ≤ maxAtt →
      smartGo lines 1 maxAtt (p : Int) attempts = (lines.length : Int) - 1 := by
  intro fuel
  induction fuel with
  | zero =>
    intro p attempts hfuel hp _ _
    rw [smartGo]
    rw [if_neg (by omega)]
    rw [if_pos (by omega : (lines.length : Int) ≤ (p : Int) + 1)]
  | succ fuel ih =>
    intro p attempts hfuel hp hblank hbud
    rw [smartGo]
    rw [if_neg (by omega)]
    rw [if_neg (by omega : ¬ ((lines.length : Int) ≤ (p : Int) + 1))]
    rw [Int.toNat_natCast_add_one]
    have hb1 : blankAt lines (p + 1) = true := hblank (p + 1) (by omega) (by omega)
    rw [if_neg (by simp [hb1])]
    rw [dif_neg (by omega : ¬ (maxAtt ≤ attempts + 1))]
    have hc : (p : Int) + 1 = ((p + 1 : Nat) : Int) := by push_cast; ring
    rw [hc]
    apply ih (p + 1) (attempts + 1) (by omega) (by omega)
    · intro i hi hilen
      exact hblank i (by omega) hilen
    · omega

theorem smartGo_up_lands (lines : List NCursesFileLine) (maxAtt : Nat) :
    ∀ (K p attempts : Nat),
      (∀ i, i < K → blankAt lines (p - 1 - i) = true) →
      K + 1 ≤ p → p < lines.length →
      blankAt lines (p - K - 1) = false →
      attempts + K + 1 ≤ maxAtt →
      smartGo lines (-1) maxAtt (p : Int) attempts = ((p - K - 1 : Nat) : Int) := by
  intro K
  induction K with
  | zero =>
    intro p attempts _ hK hp hnb _
    rw [smartGo]
    rw [if_neg (by omega)]
    rw [if_neg (by omega : ¬ ((lines.length : Int) ≤ (p : Int) + (-1)))]
    rw [show ((p : Int) + (-1)).toNat = p - 1 from by omega]
    have hnb' : blankAt lines (p - 1) = false := by
      rw [show p - 1 = p - 0 - 1 from by omega]
      exact hnb
    rw [if_pos (by simp [hnb'])]
    omega
  | succ K ih =>
    intro p attempts hblank hK hp hnb hbud
    rw [smartGo]
    rw [if_neg (by omega)]
    rw [if_neg (by omega : ¬ ((lines.length : Int) ≤ (p : Int) + (-1)))]
    rw [show ((p : Int) + (-1)).toNat = p - 1 from by omega]
    have hb1 : blankAt lines (p - 1) = true := by
      have h := hblank 0 (by omega)
      simpa using h
    rw [if_neg (by simp [hb1])]
    rw [dif_neg (by omega : ¬ (maxAtt ≤ attempts + 1))]
    rw [show (p : Int) + (-1) = ((p - 1 : Nat) : Int) from by omega]
    have heq : (p - 1) - K - 1 = p - (K + 1) - 1 := by omega
    rw [← heq]
    apply ih (p - 1) (attempts + 1)
    · intro i hi
      have h := hblank (i + 1) (by omega)
      rw [show p - 1 - 1 - i = p - 1 - (i + 1) from by omega]
      exact h
    · omega
    · omega
    · rw [heq]; exact hnb
    · omega

theorem smartGo_up_boundary (lines : List NCursesFileLine) (maxAtt : Nat) :
    ∀ (p attempts : Nat),
      (∀ i, i < p → blankAt lines i = true) →
      p < lines.length →
      attempts + p + 1 ≤ maxAtt →
      smartGo lines (-1) maxAtt (p : Int) attempts = 0 := by
  intro p
  induction p with
  | zero =>
    intro attempts _ _ _
    rw [smartGo]
    rw [if_pos (by omega : ((0 : Nat) : Int) + (-1) < 0)]
  | succ p ih =>
    intro attempts hblank hp hbud
    rw [smartGo]
    rw [if_neg (by omega)]
    rw [if_neg (by omega : ¬ ((lines.length : Int) ≤ ((p + 1 : Nat) : Int) + (-1)))]
    rw [show (((p + 1 : Nat) : Int) + (-1)).toNat = p from by omega]
    have hb1 : blankAt lines p = true := hblank p (by omega)
    rw [if_neg (by simp [hb1])]
    rw [dif_neg (by omega : ¬ (maxAtt ≤ attempts + 1))]
    rw [show ((p + 1 : Nat) : Int) + (-1) = ((p : Nat) : Int) from by omega]
    exact ih (attempts + 1) (fun i hi => hblank i (by omega)) (by omega) (by omega)

/-- Claim C6: for a loaded content buffer, cursor `p`, and either direction:
when the `K` lines adjacent to the cursor in that direction are blank (after
trimming spaces/tabs) and the next line beyond them is non-blank,
`move_cursor_smart` lands exactly on that non-blank line; when only blank
lines remain in that direction it stops at the boundary (line 0, resp.
`file_line_count - 1`); in particular the cursor never rests strictly
inside the blank run. -/
theorem move_cursor_smart_spec (lines : List NCursesFileLine) (p K : Nat)
    (hp : p < lines.length) :
    ((∀ i, i < K → blankAt lines (p + 1 + i) = true) →
      p + K + 1 < lines.length → blankAt lines (p + K + 1) = false →
      move_cursor_smart_cursor lines p 1 = p + K + 1) ∧
    ((∀ i, p < i → i < lines.length → blankAt lines i = true) →
      move_cursor_smart_cursor lines p 1 = lines.length - 1) ∧
    ((∀ i, i < K → blankAt lines (p - 1 - i) = true) → K + 1 ≤ p →
      blankAt lines (p - K - 1) = false →
      move_cursor_smart_cursor lines p (-1) = p - K - 1) ∧
    ((∀ i, i < p → blankAt lines i = true) →
      move_cursor_smart_cursor lines p (-1) = 0) := by
  have hne : ¬ lines.length = 0 := by omega
  refine ⟨?_, ?_, ?_, ?_⟩
  · intro hblank hlt hnb
    rw [move_cursor_smart_cursor, if_neg hne,
        smartGo_down_lands lines lines.length K p 0 hblank hlt hnb (by omega)]
    omega
  · intro hblank
    rw [move_cursor_smart_cursor, if_neg hne,
        smartGo_down_boundary lines lines.length (lines.length - 1 - p) p 0 rfl hp hblank
          (by omega)]
    omega
  · intro hblank hK hnb
    rw [move_cursor_smart_cursor, if_neg hne,
        smartGo_up_lands lines lines.length K p 0 hblank hK hp hnb (by omega)]
    omega
  · intro hblank
    rw [move_cursor_smart_cursor, if_neg hne,
        smartGo_up_boundary lines lines.length p 0 hblank hp (by omega)]
    rfl

/-- Witness for `move_cursor_smart_spec`: content "alpha", "", "  ",
"beta" — moving down from line 0 skips the K = 2 blank lines and lands on
line 3; moving up from line 3 lands back on line 0. -/
theorem move_cursor_smart_spec_witness :
    move_cursor_smart_cursor
      [{ line := "alpha", type := ' ', is_diff_line := false },
       { line := "", type := ' ', is_diff_line := false },
       { line := "  ", type := ' ', is_diff_line := false },
       { line := "beta", type := ' ', is_diff_line := false }] 0 1 = 0 + 2 + 1 ∧
    move_cursor_smart_cursor
      [{ line := "alpha", type := ' ', is_diff_line := false },
       { line := "", type := ' ', is_diff_line := false },
       { line := "  ", type := ' ', is_diff_line := false },
       { line := "beta", type := ' ', is_diff_line := false }] 3 (-1) = 3 - 2 - 1 :=
  ⟨(move_cursor_smart_spec
      [{ line := "alpha", type := ' ', is_diff_line := false },
       { line := "", type := ' ', is_diff_line := false },
       { line := "  ", type := ' ', is_diff_line := false },
       { line := "beta", type := ' ', is_diff_line := false }] 0 2 (by decide)).1
      (by decide) (by decide) (by decide),
   (move_cursor_smart_spec
      [{ line := "alpha", type := ' ', is_diff_line := false },
       { line := "", type := ' ', is_diff_line := false },
       { line := "  ", type := ' ', is_diff_line := false },
       { line := "beta", type := ' ', is_diff_line := false }] 3 2 (by decide)).2.2.1
      (by decide) (by decide) (by decide)⟩
end FERRUM
